import Mathlib

/-!
Verification of the `node_edge` bridge engine (`src/node_edge/_engine.py`,
`src/node_edge/exceptions.py`) against its natural-language specification.

The Python code is shallowly embedded: JSON values become an inductive
`Json`; Python dicts become association lists with unique keys; byte
strings become `List Nat`; the stdlib calls the engine makes
(`json.dumps(..., ensure_ascii=True)`, `sha256(...).hexdigest()`,
`bytes.split(b"\n")`) are implemented as executable Lean functions with
the same observable behaviour.
-/

namespace NodeEdge

/-- A JSON value as produced by `json.loads` / consumed by `json.dumps`.
Numbers are modelled as integers (the manifests and protocol messages the
engine exchanges in the verified properties are integer-valued; floats are
out of scope of the embedding). -/
inductive Json where
  | null : Json
  | bool : Bool → Json
  | num : Int → Json
  | str : String → Json
  | arr : List Json → Json
  | obj : List (String × Json) → Json

mutual

/-- Structural equality of JSON values, modelling Python `==` on the values
`json.loads` produces (for objects, Python dict equality: here keys are
compared in order, which agrees with dict equality on equal key orders; the
order-insensitive mapping equality used by the spec is `mappingEq` below). -/
def jsonEq : Json → Json → Bool
  | .null, .null => true
  | .bool a, .bool b => a == b
  | .num a, .num b => a == b
  | .str a, .str b => a == b
  | .arr a, .arr b => jsonListEq a b
  | .obj a, .obj b => jsonObjEq a b
  | _, _ => false

/-- Pointwise equality of JSON arrays. -/
def jsonListEq : List Json → List Json → Bool
  | [], [] => true
  | a :: as, b :: bs => jsonEq a b && jsonListEq as bs
  | _, _ => false

/-- Pointwise equality of JSON object entry lists. -/
def jsonObjEq : List (String × Json) → List (String × Json) → Bool
  | [], [] => true
  | a :: as, b :: bs => (a.1 == b.1 && jsonEq a.2 b.2) && jsonObjEq as bs
  | _, _ => false

end

/-- First-match lookup in an association list; models `d[k]` / `k in d` on a
Python dict, whose keys are unique. -/
def assocLookup {α : Type} (k : String) : List (String × α) → Option α
  | [] => none
  | kv :: rest => if kv.1 = k then some kv.2 else assocLookup k rest

/-- Removal of a key from an association list; models `d.pop(k)` on a Python
dict (keys being unique, filtering all occurrences agrees with popping the
one entry). -/
def removeKey {α : Type} (k : String) (kvs : List (String × α)) : List (String × α) :=
  kvs.filter (fun kv => kv.1 ≠ k)

/-- Lowercase hexadecimal digit for `n < 16`, also used for decimal digits. -/
def hexDigitChar (n : Nat) : Char :=
  if n < 10 then Char.ofNat (48 + n) else Char.ofNat (87 + n)

/-- Decimal digits, most significant first, by structural recursion on a
fuel bound (`n + 1` is always enough fuel, each step dividing by ten). -/
def natCharsAux : Nat → Nat → List Char
  | 0, _ => []
  | fuel + 1, n =>
      if n < 10 then [hexDigitChar n]
      else natCharsAux fuel (n / 10) ++ [hexDigitChar (n % 10)]

/-- Decimal digits of a natural number, most significant first; models the
rendering of a Python `int`. -/
def natChars (n : Nat) : List Char := natCharsAux (n + 1) n

/-- Decimal rendering of a Python `int`, with a leading minus sign when
negative. -/
def intChars (n : Int) : List Char :=
  if n < 0 then '-' :: natChars n.natAbs else natChars n.natAbs

/-- The `\uXXXX` escape of a code unit `m < 0x10000`, lowercase hex, as
emitted by `json.dumps(..., ensure_ascii=True)`. -/
def uEscape (m : Nat) : List Char :=
  ['\\', 'u', hexDigitChar (m / 4096 % 16), hexDigitChar (m / 256 % 16),
   hexDigitChar (m / 16 % 16), hexDigitChar (m % 16)]

/-- Escape of one character inside a JSON string literal, following
`json.encoder.py_encode_basestring_ascii`: the two-character short escapes,
`\uXXXX` for other control or non-ASCII characters (a surrogate pair above
the basic plane), the character itself otherwise. -/
def escapeChar (c : Char) : List Char :=
  if c = '"' then ['\\', '"']
  else if c = '\\' then ['\\', '\\']
  else if c = '\n' then ['\\', 'n']
  else if c = '\r' then ['\\', 'r']
  else if c = '\t' then ['\\', 't']
  else if c = '\x08' then ['\\', 'b']
  else if c = '\x0c' then ['\\', 'f']
  else if c.toNat < 0x20 ∨ 0x7e < c.toNat then
    if c.toNat < 0x10000 then uEscape c.toNat
    else uEscape (0xd800 + (c.toNat - 0x10000) / 0x400) ++
         uEscape (0xdc00 + (c.toNat - 0x10000) % 0x400)
  else [c]

/-- A JSON string literal: quotes around the escaped characters. -/
def dumpString (s : String) : List Char :=
  '"' :: (s.data.map escapeChar).flatten ++ ['"']

mutual

/-- `json.dumps(j, ensure_ascii=True)` with the default separators
`", "` and `": "`, as a list of characters. -/
def dumpJson : Json → List Char
  | .null => "null".data
  | .bool b => if b then "true".data else "false".data
  | .num n => intChars n
  | .str s => dumpString s
  | .arr xs => '[' :: dumpList xs ++ [']']
  | .obj kvs => '\x7b' :: dumpObj kvs ++ ['\x7d']

/-- Array elements joined by `", "`. -/
def dumpList : List Json → List Char
  | [] => []
  | [x] => dumpJson x
  | x :: y :: rest => dumpJson x ++ ", ".data ++ dumpList (y :: rest)

/-- Object entries `"key": value` joined by `", "`, in insertion order:
`json.dumps` is called without `sort_keys`, so the serialization preserves
the dict's key insertion order. -/
def dumpObj : List (String × Json) → List Char
  | [] => []
  | [kv] => dumpString kv.1 ++ ": ".data ++ dumpJson kv.2
  | kv :: kv2 :: rest =>
      dumpString kv.1 ++ ": ".data ++ dumpJson kv.2 ++ ", ".data ++ dumpObj (kv2 :: rest)

end

/-! ## SHA-256

`package_signature` hashes the serialized manifest with `hashlib.sha256`.
The hash is implemented here over byte lists (`List Nat`, each < 256),
following FIPS 180-4, so that concrete signatures can be computed inside
proofs. -/

/-- Truncation to a 32-bit word. -/
def mask32 (n : Nat) : Nat := n % 4294967296

/-- 32-bit addition. -/
def add32 (a b : Nat) : Nat := mask32 (a + b)

/-- Right rotation of a 32-bit word by `r`. -/
def rotr32 (r x : Nat) : Nat := mask32 ((x >>> r) ||| (x <<< (32 - r)))

/-- Big-endian bytes of `n`, `k` bytes wide. -/
def beBytes : Nat → Nat → List Nat
  | 0, _ => []
  | k + 1, n => beBytes k (n / 256) ++ [n % 256]

/-- Big-endian 32-bit words from groups of four bytes. -/
def bytesToWords : List Nat → List Nat
  | b0 :: b1 :: b2 :: b3 :: rest =>
      (b0 * 16777216 + b1 * 65536 + b2 * 256 + b3) :: bytesToWords rest
  | _ => []

/-- Four big-endian bytes of each 32-bit word. -/
def wordsToBytes (ws : List Nat) : List Nat :=
  (ws.map (beBytes 4)).flatten

/-- SHA-256 padding: a `0x80` byte, zeros to 56 mod 64, then the bit length
as eight big-endian bytes. -/
def sha256pad (msg : List Nat) : List Nat :=
  msg ++ [128] ++ List.replicate ((64 + 56 - (msg.length + 1) % 64) % 64) 0 ++
    beBytes 8 (msg.length * 8)

/-- Worker cutting a byte list into blocks: `cur` is the partial block under
construction and `k` its remaining capacity. -/
def toBlocksGo : List Nat → List Nat → Nat → List (List Nat)
  | [], cur, _ => if cur = [] then [] else [cur]
  | b :: rest, cur, k =>
      if k = 0 then cur :: toBlocksGo rest [b] 63
      else toBlocksGo rest (cur ++ [b]) (k - 1)

/-- The padded message cut into 64-byte blocks. -/
def toBlocks (bs : List Nat) : List (List Nat) := toBlocksGo bs [] 64

/-- The SHA-256 round constants (FIPS 180-4 §4.2.2), in decimal. -/
def sha256k : List Nat :=
  [1116352408, 1899447441, 3049323471, 3921009573,
   961987163, 1508970993, 2453635748, 2870763221,
   3624381080, 310598401, 607225278, 1426881987,
   1925078388, 2162078206, 2614888103, 3248222580,
   3835390401, 4022224774, 264347078, 604807628,
   770255983, 1249150122, 1555081692, 1996064986,
   2554220882, 2821834349, 2952996808, 3210313671,
   3336571891, 3584528711, 113926993, 338241895,
   666307205, 773529912, 1294757372, 1396182291,
   1695183700, 1986661051, 2177026350, 2456956037,
   2730485921, 2820302411, 3259730800, 3345764771,
   3516065817, 3600352804, 4094571909, 275423344,
   430227734, 506948616, 659060556, 883997877,
   958139571, 1322822218, 1537002063, 1747873779,
   1955562222, 2024104815, 2227730452, 2361852424,
   2428436474, 2756734187, 3204031479, 3329325298]

/-- The SHA-256 initial hash state (FIPS 180-4 §5.3.3), in decimal. -/
def sha256h0 : List Nat :=
  [1779033703, 3144134277, 1013904242, 2773480762,
   1359893119, 2600822924, 528734635, 1541459225]

/-- Message-schedule extension step producing `w[i]` for `16 ≤ i`. -/
def scheduleWord (w : List Nat) (i : Nat) : Nat :=
  let g := fun j => w.getD j 0
  let s0 := (rotr32 7 (g (i - 15))) ^^^ (rotr32 18 (g (i - 15))) ^^^ ((g (i - 15)) >>> 3)
  let s1 := (rotr32 17 (g (i - 2))) ^^^ (rotr32 19 (g (i - 2))) ^^^ ((g (i - 2)) >>> 10)
  mask32 (g (i - 16) + s0 + g (i - 7) + s1)

/-- The full 64-word message schedule of a block. -/
def extendW (block : List Nat) : List Nat :=
  (List.range 48).foldl (fun w i => w ++ [scheduleWord w (16 + i)]) block

/-- One compression round on the eight-word working state. -/
def sha256round (st : List Nat) (kw : Nat × Nat) : List Nat :=
  match st with
  | [a, b, c, d, e, f, g, h] =>
      let s1 := (rotr32 6 e) ^^^ (rotr32 11 e) ^^^ (rotr32 25 e)
      let ch := (e &&& f) ^^^ ((e ^^^ 0xffffffff) &&& g)
      let t1 := mask32 (h + s1 + ch + kw.1 + kw.2)
      let s0 := (rotr32 2 a) ^^^ (rotr32 13 a) ^^^ (rotr32 22 a)
      let mj := (a &&& b) ^^^ (a &&& c) ^^^ (b &&& c)
      let t2 := mask32 (s0 + mj)
      [add32 t1 t2, a, b, c, add32 d t1, e, f, g]
  | other => other

/-- Compression of one block into the chaining state. -/
def sha256block (h : List Nat) (block : List Nat) : List Nat :=
  let w := extendW (bytesToWords block)
  let st := (sha256k.zip w).foldl sha256round h
  List.zipWith add32 h st

/-- SHA-256 digest (32 bytes) of a byte list. -/
def sha256bytes (msg : List Nat) : List Nat :=
  wordsToBytes ((toBlocks (sha256pad msg)).foldl sha256block sha256h0)

/-- Two lowercase hex digits of a byte. -/
def byteHex (b : Nat) : List Char := [hexDigitChar (b / 16), hexDigitChar (b % 16)]

/-- `hashlib`'s `.hexdigest()`: the digest bytes in lowercase hex. -/
def hexdigest (digest : List Nat) : String :=
  String.mk ((digest.map byteHex).flatten)

/-! ## The engine -/

/-- `str.encode("ascii")`: the code points of an ASCII string as bytes.
(The encoding step can only be reached with ASCII input here, since
`json.dumps` is called with `ensure_ascii=True`; see `dumpJson_ok`.) -/
def asciiEncode (cs : List Char) : List Nat := cs.map Char.toNat

/-- `NodeEngine.package_signature`:
`sha256(json.dumps(self.package, ensure_ascii=True).encode("ascii")).hexdigest()`. -/
def package_signature (package : Json) : String :=
  hexdigest (sha256bytes (asciiEncode (dumpJson package)))

/-- Python dict content equality (the spec's "equal as mappings"): same
number of keys and, for every entry of the first, the other maps the same
key to an equal value. With unique keys this is `dict.__eq__` restricted to
structural value comparison. -/
def mappingEq (m1 m2 : Json) : Bool :=
  match m1, m2 with
  | .obj xs, .obj ys =>
      xs.length == ys.length &&
      xs.all (fun kv =>
        match assocLookup kv.1 ys with
        | some v => jsonEq kv.2 v
        | none => false)
  | a, b => jsonEq a b

/-- A Python runtime error raised while handling a message (subscripting a
missing key, or subscripting a non-mapping). -/
inductive PyErr where
  | keyError : String → PyErr
  | typeError : String → PyErr
deriving DecidableEq

/-- `j[k]` on a decoded JSON value: the value under key `k` of an object,
`KeyError` when the key is missing, `TypeError` when `j` is not an object. -/
def jsonIndex (j : Json) (k : String) : Except PyErr Json :=
  match j with
  | .obj kvs =>
      match assocLookup k kvs with
      | some v => .ok v
      | none => .error (.keyError k)
  | _ => .error (.typeError "object is not subscriptable")

/-- `j == lit` for a decoded JSON value and a Python string literal: only a
string with the same contents compares equal. -/
def jsonIsStr (j : Json) (lit : String) : Bool :=
  match j with
  | .str s => s = lit
  | _ => false

/-- Python truthiness of a decoded JSON value (`bool(x)`). -/
def jsonTruthy : Json → Bool
  | .null => false
  | .bool b => b
  | .num n => n != 0
  | .str s => s != ""
  | .arr xs => !xs.isEmpty
  | .obj kvs => !kvs.isEmpty

/-- The `JavaScriptPointer` dataclass. Field values are stored exactly as
they arrive in the envelope (the dataclass annotations `int`, `bool`, `str`
are not enforced at runtime). -/
structure JavaScriptPointer where
  id : Json
  awaitable : Json
  repr : Json

/-- A value materialized on the host by `_final_value`: Python `None`, a
naive JSON value, or a `JavaScriptPointer`. -/
inductive HostValue where
  | none : HostValue
  | data : Json → HostValue
  | pointer : JavaScriptPointer → HostValue

/-- `NodeEngine._final_value`: a `pointer` envelope becomes a
`JavaScriptPointer` built from its `id`, `awaitable` and `repr` entries, a
`naive` envelope returns its `data` entry, and any other `type` falls off
the `if`/`elif` chain, returning `None`. An envelope without a `type` key
raises `KeyError`. -/
def final_value (msg : Json) : Except PyErr HostValue := do
  let t ← jsonIndex msg "type"
  if jsonIsStr t "pointer" then
    let i ← jsonIndex msg "id"
    let aw ← jsonIndex msg "awaitable"
    let rep ← jsonIndex msg "repr"
    return .pointer ⟨i, aw, rep⟩
  else if jsonIsStr t "naive" then
    return .data (← jsonIndex msg "data")
  else
    return .none

/-- The exception taxonomy of `exceptions.py`: the root `NodeEdgeException`
(the spec's `BridgeError`), `NodeEdgeValueError` (the spec's
`BridgeValueError`), and `JavaScriptError` forwarded from the child. -/
inductive NodeEdgeErr where
  | nodeEdgeException : String → NodeEdgeErr
  | nodeEdgeValueError : String → NodeEdgeErr
  | javaScriptError : String → String → List (String × Json) → NodeEdgeErr

/-! ## Outbound framing -/

/-- `NodeEngine._send_message`: the exact bytes one call writes to the
socket, `json.dumps(data, ensure_ascii=True).encode("ascii") + b"\n"`. -/
def send_message_bytes (data : Json) : List Nat :=
  asciiEncode (dumpJson data) ++ [10]

/-! ## Waiters and the dispatcher -/

/-- The request kind of a waiter: the `Eval` dataclass carries the code to
evaluate, the `Await` dataclass the pointer id. -/
inductive ReqKind where
  | evalReq : String → ReqKind
  | awaitReq : Json → ReqKind

/-- The waiter fields shared by the `Eval` and `Await` dataclasses:
`success`, `result` and `error` start out `None`; `notified` models the
one-shot `threading.Event`, fired by `event.set()`. -/
structure Waiter where
  kind : ReqKind
  success : Option Bool
  result : Option Json
  error : Option Json
  notified : Bool

/-- A freshly submitted waiter: `Eval(code, Event())` / `Await(id, Event())`
with all response fields `None` and the event not yet set. -/
def Waiter.fresh (kind : ReqKind) : Waiter :=
  ⟨kind, none, none, none, false⟩

/-- The typed events consumed by `_run_events`. `localMsg` is
`LocalMessage`, `evalMsg`/`awaitMsg` are submitted `Eval`/`Await` requests
(`oid` standing for the CPython object identity `id(evt)` that the
dispatcher turns into the correlation id), `remoteMsg` is `RemoteMessage`,
and `protoErr` is `ProtocolError`. -/
inductive EngineEvent where
  | finish : EngineEvent
  | localMsg : Json → EngineEvent
  | evalMsg : Nat → String → EngineEvent
  | awaitMsg : Nat → Json → EngineEvent
  | remoteMsg : Json → EngineEvent
  | protoErr : String → EngineEvent

/-- The dispatcher-owned state: the `_pending` table keyed by correlation
id, and the log of byte strings written to the socket. -/
structure DispState where
  pending : List (String × Waiter)
  sent : List (List Nat)

/-- The protocol request `_eval` writes:
`{type: "eval", payload: {event_id: f"{event_id}", code: code}}`. -/
def evalRequest (eventId : Nat) (code : String) : Json :=
  .obj [("type", .str "eval"),
        ("payload", .obj [("event_id", .str (toString eventId)), ("code", .str code)])]

/-- The protocol request `_await` writes:
`{type: "await", payload: {event_id: f"{event_id}", pointer_id: pointer_id}}`. -/
def awaitRequest (eventId : Nat) (pointerId : Json) : Json :=
  .obj [("type", .str "await"),
        ("payload", .obj [("event_id", .str (toString eventId)), ("pointer_id", pointerId)])]

/-- Resolution of a pending waiter by one `X_result`/`X_error` response
(the four `RemoteMessage` cases of `_run_events` share this logic): when
`event_id` is a string present in `_pending`, the waiter is popped, its
`success` flag and `result` (from `payload["result"]`) or `error` (from
`payload["error"]`) field are set, and its event is fired; otherwise
nothing happens. Returns the new pending table and the resolved waiter, if
any. A response whose `payload` lacks the accessed key raises `KeyError`
(in the source this kills the dispatcher after the pop). -/
def resolvePending (pend : List (String × Waiter)) (payload : Json) (eid : Json)
    (isResult : Bool) : Except PyErr (List (String × Waiter) × Option (String × Waiter)) :=
  match eid with
  | .str s =>
      match assocLookup s pend with
      | some w =>
          if isResult then do
            let r ← jsonIndex payload "result"
            .ok (removeKey s pend,
                 some (s, { w with success := some true, result := some r, notified := true }))
          else do
            let e ← jsonIndex payload "error"
            .ok (removeKey s pend,
                 some (s, { w with success := some false, error := some e, notified := true }))
      | none => .ok (pend, none)
  | _ => .ok (pend, none)

/-- `_run_events` handling of one `RemoteMessage(content)`: the mapping
patterns require `content` to be a dict carrying `type`, `payload` and
`event_id` keys; the four recognised `type` values resolve a pending
waiter; anything else falls through to the wildcard (printed, no state
change). -/
def handleRemote (pend : List (String × Waiter)) (content : Json) :
    Except PyErr (List (String × Waiter) × Option (String × Waiter)) :=
  match content with
  | .obj kvs =>
      match assocLookup "type" kvs, assocLookup "payload" kvs, assocLookup "event_id" kvs with
      | some (.str t), some payload, some eid =>
          if t = "eval_result" then resolvePending pend payload eid true
          else if t = "eval_error" then resolvePending pend payload eid false
          else if t = "await_result" then resolvePending pend payload eid true
          else if t = "await_error" then resolvePending pend payload eid false
          else .ok (pend, none)
      | _, _, _ => .ok (pend, none)
  | _ => .ok (pend, none)

/-- One iteration of the `_run_events` loop on the event popped from the
queue. `none` means the loop broke on `Finish`; otherwise the new state and
the waiter resolved by this event, if any, are returned. `Eval`/`Await`
submissions register a fresh waiter under `str(id(evt))` and write the
corresponding request to the socket. -/
def dispatchStep (s : DispState) (evt : EngineEvent) :
    Except PyErr (Option (DispState × Option (String × Waiter))) :=
  match evt with
  | .finish => .ok none
  | .localMsg data =>
      .ok (some ({ s with sent := s.sent ++ [send_message_bytes data] }, none))
  | .evalMsg oid code =>
      .ok (some ({ pending := s.pending ++ [(toString oid, Waiter.fresh (.evalReq code))],
                   sent := s.sent ++ [send_message_bytes (evalRequest oid code)] }, none))
  | .awaitMsg oid pointerId =>
      .ok (some ({ pending := s.pending ++ [(toString oid, Waiter.fresh (.awaitReq pointerId))],
                   sent := s.sent ++ [send_message_bytes (awaitRequest oid pointerId)] }, none))
  | .remoteMsg content => do
      let (pend, resolved) ← handleRemote s.pending content
      .ok (some ({ s with pending := pend }, resolved))
  | .protoErr _ => .ok (some (s, none))

/-! ## The calling thread's side of `await_` -/

/-- The engine state visible to a calling thread before the dispatcher
runs: the bounded event queue feeding `_run_events`, and the dispatcher
state (pending table and socket log). -/
structure EngineState where
  queue : List EngineEvent
  disp : DispState

/-- The synchronous part of `NodeEngine.await_`, up to the blocking wait: a
non-awaitable pointer (`if not pointer.awaitable`) raises
`NodeEdgeValueError` before the `Await` message is constructed, so nothing
is enqueued and nothing reaches the socket; otherwise
`Await(pointer.id, Event())` (with object identity `oid`) is enqueued. The
state is returned alongside the raised error, if any. -/
def await_submit (pointer : JavaScriptPointer) (oid : Nat) (s : EngineState) :
    Option NodeEdgeErr × EngineState :=
  if !jsonTruthy pointer.awaitable then
    (some (.nodeEdgeValueError "Cannot await a non-awaitable pointer"), s)
  else
    (none, { s with queue := s.queue ++ [.awaitMsg oid pointer.id] })

/-! ## Transport: line reassembly in `_run_listen_remote` -/

/-- `chunk.split(b"\n")` on a byte string: the fragments between newline
bytes. Never empty; a chunk without a newline yields a single fragment. -/
def splitNl : List Nat → List (List Nat)
  | [] => [[]]
  | b :: rest =>
      if b = 10 then [] :: splitNl rest
      else
        match splitNl rest with
        | [] => [[b]]
        | frag :: frags => (b :: frag) :: frags

/-- One iteration of the reader loop body on a received chunk: `buf` is the
residual fragment list. A chunk with no newline (`len(bits) == 1`) is
appended to `buf`; otherwise the residual joined with the first fragment is
a complete line, each interior fragment is a complete line, and the last
fragment replaces the buffer. Returns the new buffer and the lines handed
to `handle_line`, in order. -/
def listenChunk (buf : List (List Nat)) (chunk : List Nat) :
    List (List Nat) × List (List Nat) :=
  if (splitNl chunk).length = 1 then (buf ++ [chunk], [])
  else
    ([(splitNl chunk).getLastD []],
     (buf ++ (splitNl chunk).take 1).flatten :: ((splitNl chunk).drop 1).dropLast)

/-- The reader loop over a sequence of received chunks, starting from a
residual buffer: the final buffer and all complete lines emitted, in
order. -/
def listenRun (buf : List (List Nat)) : List (List Nat) → List (List Nat) × List (List Nat)
  | [] => (buf, [])
  | chunk :: rest =>
      ((listenRun (listenChunk buf chunk).1 rest).1,
       (listenChunk buf chunk).2 ++ (listenRun (listenChunk buf chunk).1 rest).2)

/-! ## Environment directory -/

/-- A filesystem path as its components. -/
abbrev FsPath : Type := List String

/-- `NodeEngine._try_env_candidate`: `path.mkdir(parents=True, exist_ok=True)`
succeeds or raises `PermissionError`/`NotADirectoryError`; the filesystem's
answer is abstracted as the oracle `mkdirOk`. -/
def try_env_candidate (mkdirOk : FsPath → Bool) (path : FsPath) : Bool :=
  mkdirOk path

/-- The iteration of `_ensure_env_dir` over candidate base directories:
the first candidate whose directory can be created wins. -/
def firstCreatable (mkdirOk : FsPath → Bool) : List FsPath → Except NodeEdgeErr FsPath
  | [] => .error (.nodeEdgeException "Could not find/create env dir")
  | p :: rest =>
      if try_env_candidate mkdirOk p then .ok p else firstCreatable mkdirOk rest

/-- `NodeEngine._ensure_env_dir`: for each of `xdg_state_home()` and
`Path(gettempdir())`, in that order, try
`candidate / "node_edge" / "envs" / self.package_signature`; return the
first that can be created, raise `NodeEdgeException` otherwise. -/
def ensure_env_dir (mkdirOk : FsPath → Bool) (xdgStateHome tempDir : FsPath)
    (package : Json) : Except NodeEdgeErr FsPath :=
  firstCreatable mkdirOk
    ([xdgStateHome, tempDir].map
      (fun candidate => candidate ++ ["node_edge", "envs", package_signature package]))

/-! ## `JavaScriptError` -/

/-- The `JavaScriptError` host object: `self.message`, `self.stack` and the
captured keyword dict `self.extra`. -/
structure JavaScriptError where
  message : String
  stack : String
  extra : List (String × Json)

/-- Construction `JavaScriptError(**err)` from a forwarded error dict, as
raised by `eval`/`await_` on a failed response: the `message` parameter
defaults to `"unknown error"`, `stack` defaults to `""`, and every other
entry lands in `extra`, in order. The declared parameter annotations are
`str`; a non-string `message`/`stack` is outside the model (`none`). -/
def jsErrorOfDict (err : List (String × Json)) : Option JavaScriptError := do
  let message ←
    match assocLookup "message" err with
    | none => some "unknown error"
    | some (.str s) => some s
    | some _ => none
  let stack ←
    match assocLookup "stack" err with
    | none => some ""
    | some (.str s) => some s
    | some _ => none
  some ⟨message, stack, removeKey "stack" (removeKey "message" err)⟩

/-- `JavaScriptError.__str__`: `f"{self.message}:\n{self.stack}"`. -/
def jsErrorStr (e : JavaScriptError) : String :=
  e.message ++ ":\n" ++ e.stack

/-! ## Framing lemmas: `json.dumps(..., ensure_ascii=True)` output is
ASCII and newline-free -/

/-- A character that may appear in a serialized message body: ASCII and not
a newline. -/
abbrev charOk (c : Char) : Prop := c.toNat < 128 ∧ c.toNat ≠ 10

/-- All characters of the list are ASCII and newline-free. -/
abbrev asciiLine (cs : List Char) : Prop := ∀ c ∈ cs, charOk c

theorem asciiLine_append {a b : List Char} (ha : asciiLine a) (hb : asciiLine b) :
    asciiLine (a ++ b) := by
  intro c hc
  rcases List.mem_append.mp hc with h | h
  · exact ha c h
  · exact hb c h

theorem hexDigitChar_ok : ∀ n, n < 16 → charOk (hexDigitChar n) := by decide

theorem uEscape_ok (m : Nat) : asciiLine (uEscape m) := by
  intro c hc
  simp only [uEscape, List.mem_cons, List.not_mem_nil, or_false] at hc
  rcases hc with h | h | h | h | h | h <;> subst h
  · exact ⟨by decide, by decide⟩
  · exact ⟨by decide, by decide⟩
  · exact hexDigitChar_ok _ (Nat.mod_lt _ (by omega))
  · exact hexDigitChar_ok _ (Nat.mod_lt _ (by omega))
  · exact hexDigitChar_ok _ (Nat.mod_lt _ (by omega))
  · exact hexDigitChar_ok _ (Nat.mod_lt _ (by omega))

theorem escapeChar_ok (c : Char) : asciiLine (escapeChar c) := by
  unfold escapeChar
  split
  · decide
  split
  · decide
  split
  · decide
  split
  · decide
  split
  · decide
  split
  · decide
  split
  · decide
  split
  · split
    · exact uEscape_ok _
    · exact asciiLine_append (uEscape_ok _) (uEscape_ok _)
  · rename_i hrange
    push_neg at hrange
    intro x hx
    simp only [List.mem_cons, List.not_mem_nil, or_false] at hx
    subst hx
    exact ⟨by omega, by omega⟩

theorem natCharsAux_ok : ∀ fuel n, asciiLine (natCharsAux fuel n) := by
  intro fuel
  induction fuel with
  | zero => intro n c hc; simp [natCharsAux] at hc
  | succ fuel ih =>
      intro n
      unfold natCharsAux
      split
      · rename_i h
        intro c hc
        simp only [List.mem_cons, List.not_mem_nil, or_false] at hc
        subst hc
        exact hexDigitChar_ok _ (by omega)
      · refine asciiLine_append (ih _) ?_
        intro c hc
        simp only [List.mem_cons, List.not_mem_nil, or_false] at hc
        subst hc
        exact hexDigitChar_ok _ (Nat.lt_of_lt_of_le (Nat.mod_lt _ (by omega)) (by omega))

theorem natChars_ok (n : Nat) : asciiLine (natChars n) := natCharsAux_ok _ _

theorem intChars_ok (n : Int) : asciiLine (intChars n) := by
  unfold intChars
  split
  · intro c hc
    rcases List.mem_cons.mp hc with h | h
    · subst h; exact ⟨by decide, by decide⟩
    · exact natChars_ok _ c h
  · exact natChars_ok _

theorem dumpString_ok (s : String) : asciiLine (dumpString s) := by
  intro c hc
  rcases List.mem_cons.mp hc with h | h
  · subst h; exact ⟨by decide, by decide⟩
  rcases List.mem_append.mp h with h | h
  · obtain ⟨l, hl, hcl⟩ := List.mem_flatten.mp h
    obtain ⟨c0, _, hc0⟩ := List.mem_map.mp hl
    exact escapeChar_ok c0 c (hc0 ▸ hcl)
  · simp only [List.mem_cons, List.not_mem_nil, or_false] at h
    subst h; exact ⟨by decide, by decide⟩

mutual

theorem dumpJson_ok : ∀ j, asciiLine (dumpJson j)
  | .null => by unfold dumpJson; decide
  | .bool b => by
      unfold dumpJson
      cases b <;> simp only [Bool.false_eq_true, if_true, if_false] <;> decide
  | .num n => by unfold dumpJson; exact intChars_ok n
  | .str s => by unfold dumpJson; exact dumpString_ok s
  | .arr xs => by
      unfold dumpJson
      intro c hc
      rcases List.mem_cons.mp hc with h | h
      · subst h; exact ⟨by decide, by decide⟩
      rcases List.mem_append.mp h with h | h
      · exact dumpList_ok xs c h
      · simp only [List.mem_cons, List.not_mem_nil, or_false] at h
        subst h; exact ⟨by decide, by decide⟩
  | .obj kvs => by
      unfold dumpJson
      intro c hc
      rcases List.mem_cons.mp hc with h | h
      · subst h; exact ⟨by decide, by decide⟩
      rcases List.mem_append.mp h with h | h
      · exact dumpObj_ok kvs c h
      · simp only [List.mem_cons, List.not_mem_nil, or_false] at h
        subst h; exact ⟨by decide, by decide⟩

theorem dumpList_ok : ∀ xs, asciiLine (dumpList xs)
  | [] => by unfold dumpList; intro c hc; simp at hc
  | [x] => by unfold dumpList; exact dumpJson_ok x
  | x :: y :: rest => by
      unfold dumpList
      exact asciiLine_append (asciiLine_append (dumpJson_ok x) (by decide))
        (dumpList_ok (y :: rest))

theorem dumpObj_ok : ∀ kvs, asciiLine (dumpObj kvs)
  | [] => by unfold dumpObj; intro c hc; simp at hc
  | [kv] => by
      unfold dumpObj
      exact asciiLine_append (asciiLine_append (dumpString_ok kv.1) (by decide))
        (dumpJson_ok kv.2)
  | kv :: kv2 :: rest => by
      unfold dumpObj
      exact asciiLine_append (asciiLine_append (asciiLine_append
        (asciiLine_append (dumpString_ok kv.1) (by decide)) (dumpJson_ok kv.2))
        (by decide)) (dumpObj_ok (kv2 :: rest))

end

theorem dumpJson_bytes_ok (data : Json) :
    ∀ b ∈ asciiEncode (dumpJson data), b < 128 ∧ b ≠ 10 := by
  intro b hb
  obtain ⟨c, hc, hcb⟩ := List.mem_map.mp hb
  obtain ⟨h1, h2⟩ := dumpJson_ok data c hc
  exact ⟨hcb ▸ h1, hcb ▸ h2⟩

/-- C9: the byte sequence one `_send_message` call writes to the socket is
ASCII-only, contains exactly one newline byte, and that newline is the
final byte, for every JSON-representable payload. -/
theorem send_message_framing (data : Json) :
    (∀ b ∈ send_message_bytes data, b < 128) ∧
    (send_message_bytes data).count 10 = 1 ∧
    (send_message_bytes data).getLast? = some 10 := by
  refine ⟨?_, ?_, ?_⟩
  · intro b hb
    rcases List.mem_append.mp hb with h | h
    · exact (dumpJson_bytes_ok data b h).1
    · simp only [List.mem_cons, List.not_mem_nil, or_false] at h
      omega
  · unfold send_message_bytes
    rw [List.count_append]
    have : (asciiEncode (dumpJson data)).count 10 = 0 := by
      rw [List.count_eq_zero]
      intro hmem
      exact (dumpJson_bytes_ok data 10 hmem).2 rfl
    simp [this]
  · exact List.getLast?_concat _

/-! ## Claims about `_final_value` -/

/-- C1 counterexample: two `pointer` envelopes differing only in their
`iterable` field materialize to the same bare `JavaScriptPointer` built
from `id`, `awaitable` and `repr` alone — `_final_value` ignores
`iterable`, registers nothing in any handle table and wraps the pointer in
no proxy. -/
theorem final_value_ignores_iterable :
    final_value (.obj [("type", .str "pointer"), ("id", .num 1),
        ("awaitable", .bool false), ("iterable", .bool true), ("repr", .str "x")]) =
      .ok (.pointer ⟨.num 1, .bool false, .str "x"⟩) ∧
    final_value (.obj [("type", .str "pointer"), ("id", .num 1),
        ("awaitable", .bool false), ("iterable", .bool false), ("repr", .str "x")]) =
      .ok (.pointer ⟨.num 1, .bool false, .str "x"⟩) :=
  ⟨rfl, rfl⟩

/-- C1 (amended): a `naive` envelope materializes as its `data` field
unchanged; a `pointer` envelope materializes as a `JavaScriptPointer` built
from the envelope's `id`, `awaitable` and `repr` fields, returned directly
(no `iterable` field is read, and there is no handle-table registration or
proxy wrapping). -/
theorem final_value_spec (msg : Json) :
    (∀ d, jsonIndex msg "type" = .ok (.str "naive") →
      jsonIndex msg "data" = .ok d → final_value msg = .ok (.data d)) ∧
    (∀ i aw rep, jsonIndex msg "type" = .ok (.str "pointer") →
      jsonIndex msg "id" = .ok i → jsonIndex msg "awaitable" = .ok aw →
      jsonIndex msg "repr" = .ok rep →
      final_value msg = .ok (.pointer ⟨i, aw, rep⟩)) := by
  constructor
  · intro d ht hd
    simp [final_value, ht, hd, jsonIsStr, Bind.bind, Except.bind, Pure.pure, Except.pure]
  · intro i aw rep ht hi ha hr
    simp [final_value, ht, hi, ha, hr, jsonIsStr, Bind.bind, Except.bind, Pure.pure,
      Except.pure]

/-- C1 witness: the amended theorem applied to a concrete pointer
envelope. -/
theorem final_value_spec_witness :
    final_value (.obj [("type", .str "pointer"), ("id", .num 7),
        ("awaitable", .bool true), ("repr", .str "f")]) =
      .ok (.pointer ⟨.num 7, .bool true, .str "f"⟩) :=
  (final_value_spec _).2 (.num 7) (.bool true) (.str "f") rfl rfl rfl rfl

/-- C10: an envelope carrying a `type` that is neither `"pointer"` nor
`"naive"` falls off the `if`/`elif` chain of `_final_value`, which returns
`None` — no error is raised. -/
theorem final_value_unknown_type (msg t : Json)
    (ht : jsonIndex msg "type" = .ok t)
    (hp : t ≠ .str "pointer") (hn : t ≠ .str "naive") :
    final_value msg = .ok .none := by
  have hp' : jsonIsStr t "pointer" = false := by
    cases t with
    | str s =>
        simp only [jsonIsStr, decide_eq_false_iff_not]
        intro h
        exact hp (by rw [h])
    | null => rfl
    | bool b => rfl
    | num n => rfl
    | arr xs => rfl
    | obj kvs => rfl
  have hn' : jsonIsStr t "naive" = false := by
    cases t with
    | str s =>
        simp only [jsonIsStr, decide_eq_false_iff_not]
        intro h
        exact hn (by rw [h])
    | null => rfl
    | bool b => rfl
    | num n => rfl
    | arr xs => rfl
    | obj kvs => rfl
  simp [final_value, ht, hp', hn', Bind.bind, Except.bind, Pure.pure, Except.pure]

/-- C10 witness: a successful response with the unrecognized envelope type
`"exotic"` yields `None`. -/
theorem final_value_unknown_type_witness :
    final_value (.obj [("type", .str "exotic"), ("data", .num 5)]) = .ok .none :=
  final_value_unknown_type _ (.str "exotic") rfl
    (fun h => by injection h with h'; exact absurd h' (by decide))
    (fun h => by injection h with h'; exact absurd h' (by decide))

/-! ## Claims about `package_signature` -/

/-- C2 counterexample: two manifests equal as mappings but with different
key insertion order get different signatures — `json.dumps` is called
without `sort_keys`, so the serialization, and hence the digest, depends on
insertion order. -/
theorem package_signature_order_dependent :
    mappingEq (.obj [("a", .num 1), ("b", .num 2)])
      (.obj [("b", .num 2), ("a", .num 1)]) = true ∧
    package_signature (.obj [("a", .num 1), ("b", .num 2)]) ≠
      package_signature (.obj [("b", .num 2), ("a", .num 1)]) := by
  constructor
  · rfl
  · decide

/-- C2 (amended): the signature is a deterministic hex digest of the
manifest's ASCII-escaped JSON serialization, and depends only on that
serialization — which preserves key insertion order, so manifests with the
same serialized form (in particular, the same manifest on every
computation) always get the same signature, while mapping-equal manifests
with different key order may not. -/
theorem package_signature_congr (M1 M2 : Json)
    (h : dumpJson M1 = dumpJson M2) :
    package_signature M1 = package_signature M2 := by
  unfold package_signature asciiEncode
  rw [h]

/-- C2 witness: the amended theorem applied to a concrete manifest. -/
theorem package_signature_congr_witness :
    package_signature (.obj [("dependencies", .obj [("axios", .str "^1.2.0")])]) =
      package_signature (.obj [("dependencies", .obj [("axios", .str "^1.2.0")])]) :=
  package_signature_congr _ _ rfl

/-! ## Transport lemmas: `splitNl` -/

theorem splitNl_ne_nil : ∀ bs, splitNl bs ≠ []
  | [] => by simp [splitNl]
  | b :: rest => by
      unfold splitNl
      split
      · simp
      · match h : splitNl rest with
        | [] => simp
        | frag :: frags => simp

theorem splitNl_cons_nl (rest : List Nat) : splitNl (10 :: rest) = [] :: splitNl rest := rfl

theorem splitNl_cons_other (b0 : Nat) (hb : b0 ≠ 10) (rest : List Nat) :
    splitNl (b0 :: rest) = (b0 :: (splitNl rest).headI) :: (splitNl rest).tail := by
  conv_lhs => unfold splitNl
  rw [if_neg hb]
  match h : splitNl rest, splitNl_ne_nil rest with
  | frag :: frags, _ => simp
  | [], hne => exact absurd rfl hne

theorem splitNl_headI_mem (bs : List Nat) : (splitNl bs).headI ∈ splitNl bs := by
  match h : splitNl bs, splitNl_ne_nil bs with
  | frag :: frags, _ => simp
  | [], hne => exact absurd rfl hne

theorem splitNl_no_nl (bs : List Nat) : ∀ l ∈ splitNl bs, 10 ∉ l := by
  induction bs with
  | nil =>
      intro l hl
      simp [splitNl] at hl
      simp [hl]
  | cons b rest ih =>
      intro l hl
      by_cases hb : b = 10
      · subst hb
        rw [splitNl_cons_nl] at hl
        rcases List.mem_cons.mp hl with h | h
        · simp [h]
        · exact ih l h
      · rw [splitNl_cons_other b hb] at hl
        rcases List.mem_cons.mp hl with h | h
        · subst h
          intro hmem
          rcases List.mem_cons.mp hmem with h2 | h2
          · exact hb h2.symm
          · exact ih _ (splitNl_headI_mem rest) h2
        · exact ih l (List.mem_of_mem_tail h)

theorem splitNl_of_no_nl : ∀ bs, 10 ∉ bs → splitNl bs = [bs]
  | [] => fun _ => rfl
  | b :: rest => by
      intro h
      have hb : ¬b = 10 := fun hb => h (by simp [hb])
      have hr : 10 ∉ rest := fun hr => h (List.mem_cons_of_mem _ hr)
      rw [splitNl_cons_other b hb, splitNl_of_no_nl rest hr]
      rfl

theorem splitNl_singleton (bs : List Nat) (h : (splitNl bs).length = 1) :
    splitNl bs = [bs] := by
  induction bs with
  | nil => rfl
  | cons b rest ih =>
      by_cases hb : b = 10
      · subst hb
        rw [splitNl_cons_nl, List.length_cons] at h
        have hlen : (splitNl rest).length = 0 := by omega
        exact absurd (List.length_eq_zero.mp hlen) (splitNl_ne_nil rest)
      · rw [splitNl_cons_other b hb] at h
        rw [splitNl_cons_other b hb]
        match hr : splitNl rest, splitNl_ne_nil rest with
        | [frag], _ =>
            have h1 := ih (by rw [hr]; rfl)
            rw [hr] at h1
            injection h1 with h1 _
            subst h1
            rfl
        | frag :: frag2 :: frags, _ =>
            rw [hr, List.length_cons] at h
            simp at h
        | [], hne => exact absurd rfl hne

theorem splitNl_append : ∀ a b, splitNl (a ++ b) =
    (splitNl a).dropLast ++
      ((splitNl a).getLastD [] ++ (splitNl b).headI) :: (splitNl b).tail
  | [], b => by
      show splitNl b = _
      match hb : splitNl b, splitNl_ne_nil b with
      | frag :: frags, _ =>
          have h0 : splitNl ([] : List Nat) = [[]] := rfl
          rw [h0]
          simp
      | [], hne => exact absurd rfl hne
  | b0 :: a', b => by
      by_cases hb : b0 = 10
      · subst hb
        show splitNl (10 :: (a' ++ b)) = _
        rw [splitNl_cons_nl, splitNl_cons_nl, splitNl_append a' b]
        match ha : splitNl a', splitNl_ne_nil a' with
        | frag :: frags, _ => simp [List.getLastD_cons]
        | [], hne => exact absurd rfl hne
      · show splitNl (b0 :: (a' ++ b)) = _
        rw [splitNl_cons_other b0 hb, splitNl_cons_other b0 hb, splitNl_append a' b]
        match ha : splitNl a', splitNl_ne_nil a' with
        | [frag], _ =>
            match hsb : splitNl b, splitNl_ne_nil b with
            | fb :: fbs, _ => simp
            | [], hne => exact absurd rfl hne
        | frag :: frag2 :: frags, _ =>
            simp only [List.headI, List.tail_cons, List.dropLast_cons₂, List.cons_append,
              List.getLastD_cons]
        | [], hne => exact absurd rfl hne

theorem splitNl_nonl_append (r s : List Nat) (h : 10 ∉ r) :
    splitNl (r ++ s) = (r ++ (splitNl s).headI) :: (splitNl s).tail := by
  rw [splitNl_append, splitNl_of_no_nl r h]
  simp

theorem getLastD_mem {α : Type} : ∀ (l : List α) (d : α), l ≠ [] → l.getLastD d ∈ l
  | [x], _, _ => by simp
  | x :: y :: t, d, _ => by
      rw [List.getLastD_cons]
      exact List.mem_cons_of_mem _ (getLastD_mem (y :: t) x (by simp))

theorem getLastD_append_cons {α : Type} :
    ∀ (X : List α) (y : α) (t : List α) (d : α),
      (X ++ y :: t).getLastD d = (y :: t).getLastD d
  | [], _, _, _ => rfl
  | x :: X, y, t, d => by
      rw [List.cons_append, List.getLastD_cons, getLastD_append_cons X y t x,
        List.getLastD_cons, List.getLastD_cons]

theorem listenChunk_correct (buf : List (List Nat)) (chunk : List Nat)
    (h10 : 10 ∉ buf.flatten) :
    (listenChunk buf chunk).2 = (splitNl (buf.flatten ++ chunk)).dropLast ∧
    (listenChunk buf chunk).1.flatten = (splitNl (buf.flatten ++ chunk)).getLastD [] ∧
    10 ∉ (listenChunk buf chunk).1.flatten := by
  have hpref := splitNl_nonl_append buf.flatten chunk h10
  unfold listenChunk
  split
  · rename_i hlen
    have hone := splitNl_singleton chunk hlen
    rw [hone] at hpref
    refine ⟨?_, ?_, ?_⟩
    · simp [hpref]
    · simp [hpref, List.flatten_append]
    · intro hmem
      simp only [List.flatten_append] at hmem
      rcases List.mem_append.mp hmem with h | h
      · exact h10 h
      · have hc : 10 ∉ chunk := splitNl_no_nl chunk chunk (by rw [hone]; simp)
        simp at h
        exact hc h
  · rename_i hlen
    match hc : splitNl chunk, splitNl_ne_nil chunk with
    | [x], _ => rw [hc] at hlen; simp at hlen
    | x :: y :: ys, _ =>
        rw [hc] at hpref
        refine ⟨?_, ?_, ?_⟩
        · rw [hpref]
          simp [List.flatten_append, List.dropLast_cons₂]
        · rw [hpref]
          simp [List.getLastD_cons]
        · have hmem : (x :: y :: ys).getLastD [] ∈ splitNl chunk := by
            rw [hc]
            exact getLastD_mem _ _ (by simp)
          have := splitNl_no_nl chunk _ hmem
          simpa using this
    | [], hne => exact absurd rfl hne

theorem listenRun_correct (cs : List (List Nat)) : ∀ buf, 10 ∉ buf.flatten →
    (listenRun buf cs).2 = (splitNl (buf.flatten ++ cs.flatten)).dropLast ∧
    (listenRun buf cs).1.flatten = (splitNl (buf.flatten ++ cs.flatten)).getLastD [] ∧
    10 ∉ (listenRun buf cs).1.flatten := by
  induction cs with
  | nil =>
      intro buf h10
      refine ⟨?_, ?_, h10⟩
      · show ([] : List (List Nat)) = _
        simp [splitNl_of_no_nl _ h10]
      · show buf.flatten = _
        simp [splitNl_of_no_nl _ h10]
  | cons chunk rest ih =>
      intro buf h10
      obtain ⟨he, hr, hn⟩ := listenChunk_correct buf chunk h10
      obtain ⟨ihe, ihr, ihn⟩ := ih (listenChunk buf chunk).1 hn
      have hflat : (chunk :: rest).flatten = chunk ++ rest.flatten := rfl
      refine ⟨?_, ?_, ihn⟩
      · show (listenChunk buf chunk).2 ++ (listenRun (listenChunk buf chunk).1 rest).2 = _
        rw [he, ihe, hr, hflat, ← List.append_assoc,
          splitNl_append (buf.flatten ++ chunk) rest.flatten, List.dropLast_append_cons,
          splitNl_nonl_append _ rest.flatten (hr ▸ hn)]
      · show (listenRun (listenChunk buf chunk).1 rest).1.flatten = _
        rw [ihr, hr, hflat, ← List.append_assoc,
          splitNl_append (buf.flatten ++ chunk) rest.flatten, getLastD_append_cons,
          splitNl_nonl_append _ rest.flatten (hr ▸ hn)]

/-- C3: over any sequence of chunks read from the socket (starting from an
empty residual buffer), the reader's per-chunk reassembly — append on no
newline, otherwise residual + first fragment, interior fragments, last
fragment becomes the residual — emits, in order, exactly the
newline-terminated lines of the concatenated byte stream, the final
residual being the tail after the last newline. -/
theorem run_listen_remote_lines (cs : List (List Nat)) :
    (listenRun [] cs).2 = (splitNl cs.flatten).dropLast ∧
    (listenRun [] cs).1.flatten = (splitNl cs.flatten).getLastD [] := by
  obtain ⟨h1, h2, _⟩ := listenRun_correct cs [] (by simp)
  constructor
  · simpa using h1
  · simpa using h2


/-! ## Dispatcher claims -/

/-- The shape of a response envelope from the child: a dict carrying
`type`, `payload` and a string `event_id`. -/
def respMsg (t : String) (payload : Json) (eid : String) : Json :=
  .obj [("type", .str t), ("payload", payload), ("event_id", .str eid)]

theorem assocLookup_removeKey {α : Type} (s : String) :
    ∀ l : List (String × α), assocLookup s (removeKey s l) = none
  | [] => rfl
  | kv :: rest => by
      by_cases h : kv.1 = s
      · have heq : removeKey s (kv :: rest) = removeKey s rest := by
          simp [removeKey, List.filter_cons, h]
        rw [heq]
        exact assocLookup_removeKey s rest
      · have heq : removeKey s (kv :: rest) = kv :: removeKey s rest := by
          simp [removeKey, List.filter_cons, h]
        rw [heq]
        unfold assocLookup
        rw [if_neg h]
        exact assocLookup_removeKey s rest

/-- C4: a registered waiter is resolved exactly once. When the pending
table maps correlation id `s` to a fresh waiter, the first `X_result`
response with `event_id` `s` pops the waiter and resolves it with
`success = True`, `result = payload["result"]`, no error, and its event
fired; the first `X_error` response resolves it with `success = False`,
`error = payload["error"]`, no result. Afterwards the id is gone from the
pending table, and any later response carrying the same `event_id`
matches no waiter and resolves nothing. -/
theorem waiter_resolved_exactly_once (pend : List (String × Waiter)) (s : String)
    (k : ReqKind) (payload v : Json)
    (hw : assocLookup s pend = some (Waiter.fresh k)) :
    (∀ t, (t = "eval_result" ∨ t = "await_result") →
      jsonIndex payload "result" = .ok v →
      handleRemote pend (respMsg t payload s) =
        .ok (removeKey s pend, some (s, ⟨k, some true, some v, none, true⟩))) ∧
    (∀ t, (t = "eval_error" ∨ t = "await_error") →
      jsonIndex payload "error" = .ok v →
      handleRemote pend (respMsg t payload s) =
        .ok (removeKey s pend, some (s, ⟨k, some false, none, some v, true⟩))) ∧
    assocLookup s (removeKey s pend) = none ∧
    (∀ t payload2, handleRemote (removeKey s pend) (respMsg t payload2 s) =
      .ok (removeKey s pend, none)) := by
  have hshape : ∀ pend2 t payload2,
      handleRemote pend2 (respMsg t payload2 s) =
        if t = "eval_result" then resolvePending pend2 payload2 (.str s) true
        else if t = "eval_error" then resolvePending pend2 payload2 (.str s) false
        else if t = "await_result" then resolvePending pend2 payload2 (.str s) true
        else if t = "await_error" then resolvePending pend2 payload2 (.str s) false
        else .ok (pend2, none) := fun _ _ _ => rfl
  refine ⟨?_, ?_, assocLookup_removeKey s pend, ?_⟩
  · intro t ht hres
    rcases ht with h | h <;> subst h <;> rw [hshape] <;>
      simp [resolvePending, hw, hres, Waiter.fresh, Bind.bind, Except.bind]
  · intro t ht herr
    rcases ht with h | h <;> subst h <;> rw [hshape] <;>
      simp [resolvePending, hw, herr, Waiter.fresh, Bind.bind, Except.bind]
  · intro t payload2
    have hnone := assocLookup_removeKey s pend
    rw [hshape]
    split_ifs <;> simp [resolvePending, hnone]

/-- C4 witness: a concrete eval waiter resolved by its result response;
the duplicate delivery of the same response afterwards resolves nothing. -/
theorem waiter_resolved_exactly_once_witness :
    handleRemote [("7", Waiter.fresh (.evalReq "1 + 1"))]
        (respMsg "eval_result" (.obj [("result", .num 2)]) "7") =
      .ok ([], some ("7", ⟨.evalReq "1 + 1", some true, some (.num 2), none, true⟩)) ∧
    handleRemote [] (respMsg "eval_result" (.obj [("result", .num 2)]) "7") =
      .ok ([], none) := by
  have h := waiter_resolved_exactly_once [("7", Waiter.fresh (.evalReq "1 + 1"))] "7"
    (.evalReq "1 + 1") (.obj [("result", .num 2)]) (.num 2) rfl
  exact ⟨h.1 "eval_result" (Or.inl rfl) rfl, h.2.2.2 "eval_result" _⟩

/-- C6: awaiting a pointer whose awaitable flag is false raises
`NodeEdgeValueError` synchronously in the calling thread: no event is
enqueued, nothing reaches the socket, and the engine state is returned
unchanged. -/
theorem await_nonawaitable_sync_error (p : JavaScriptPointer) (oid : Nat)
    (s : EngineState) (h : p.awaitable = .bool false) :
    await_submit p oid s =
      (some (.nodeEdgeValueError "Cannot await a non-awaitable pointer"), s) := by
  unfold await_submit
  rw [h]
  rfl

/-- C6 witness: a concrete non-awaitable pointer in a concrete engine
state. -/
theorem await_nonawaitable_sync_error_witness :
    await_submit ⟨.num 3, .bool false, .str "function yolo"⟩ 11
        ⟨[.evalMsg 4 "1 + 1"], ⟨[("4", Waiter.fresh (.evalReq "1 + 1"))], []⟩⟩ =
      (some (.nodeEdgeValueError "Cannot await a non-awaitable pointer"),
       ⟨[.evalMsg 4 "1 + 1"], ⟨[("4", Waiter.fresh (.evalReq "1 + 1"))], []⟩⟩) :=
  await_nonawaitable_sync_error _ 11 _ rfl

/-- C7: `_ensure_env_dir` tries the XDG state home first and the temp
directory second, each joined with `node_edge/envs/<package signature>`,
returns the first candidate whose directory can be created, and raises the
engine's env-setup error (`NodeEdgeException`; the code has no dedicated
subclass) when neither can. -/
theorem ensure_env_dir_spec (mkdirOk : FsPath → Bool) (xdg tmp : FsPath)
    (package : Json) :
    (mkdirOk (xdg ++ ["node_edge", "envs", package_signature package]) = true →
      ensure_env_dir mkdirOk xdg tmp package =
        .ok (xdg ++ ["node_edge", "envs", package_signature package])) ∧
    (mkdirOk (xdg ++ ["node_edge", "envs", package_signature package]) = false →
      mkdirOk (tmp ++ ["node_edge", "envs", package_signature package]) = true →
      ensure_env_dir mkdirOk xdg tmp package =
        .ok (tmp ++ ["node_edge", "envs", package_signature package])) ∧
    (mkdirOk (xdg ++ ["node_edge", "envs", package_signature package]) = false →
      mkdirOk (tmp ++ ["node_edge", "envs", package_signature package]) = false →
      ensure_env_dir mkdirOk xdg tmp package =
        .error (.nodeEdgeException "Could not find/create env dir")) := by
  refine ⟨?_, ?_, ?_⟩
  · intro h1
    simp [ensure_env_dir, firstCreatable, try_env_candidate, h1]
  · intro h1 h2
    simp [ensure_env_dir, firstCreatable, try_env_candidate, h1, h2]
  · intro h1 h2
    simp [ensure_env_dir, firstCreatable, try_env_candidate, h1, h2]

/-- C7 witness: with no creatable candidate the engine raises its env-setup
error. -/
theorem ensure_env_dir_spec_witness :
    ensure_env_dir (fun _ => false) ["home", "state"] ["tmp"] (.obj []) =
      .error (.nodeEdgeException "Could not find/create env dir") :=
  (ensure_env_dir_spec (fun _ => false) ["home", "state"] ["tmp"] (.obj [])).2.2 rfl rfl

/-- C8: a `JavaScriptError` constructed from a forwarded child error dict
with string message `m` and stack `st` preserves both, retains every other
field of the dict in `extra` (in order), and its string form is
`m ++ ":\n" ++ st`. -/
theorem javascript_error_preserves (err : List (String × Json)) (m st : String)
    (hm : assocLookup "message" err = some (.str m))
    (hs : assocLookup "stack" err = some (.str st)) :
    jsErrorOfDict err = some ⟨m, st, removeKey "stack" (removeKey "message" err)⟩ ∧
    jsErrorStr ⟨m, st, removeKey "stack" (removeKey "message" err)⟩ = m ++ ":\n" ++ st := by
  constructor
  · simp [jsErrorOfDict, hm, hs, Bind.bind, Option.bind]
  · rfl

/-- C8 witness: a concrete forwarded error with one extra field. -/
theorem javascript_error_preserves_witness :
    jsErrorOfDict [("message", .str "fail"), ("stack", .str "Error: fail"),
        ("code", .num 1)] =
      some ⟨"fail", "Error: fail", [("code", .num 1)]⟩ ∧
    jsErrorStr ⟨"fail", "Error: fail", [("code", .num 1)]⟩ =
      "fail" ++ ":\n" ++ "Error: fail" := by
  have h := javascript_error_preserves
    [("message", .str "fail"), ("stack", .str "Error: fail"), ("code", .num 1)]
    "fail" "Error: fail" rfl rfl
  exact ⟨h.1, h.2⟩

end NodeEdge
